import Mathlib

/-!
Shallow embedding of the Elucidate dream-questionnaire application
(`src/app.py`) and proofs about its interpretation pipeline and wizard flow.

Python strings are modelled as Lean `String` (a wrapper around `List Char`);
`str.strip()` and `str.split()` (no argument) are modelled by `pyStrip` and
`pySplit` below, with whitespace given by `Char.isWhitespace`.  The external
OpenAI call is modelled as an oracle value of type `Except Unit String`:
`.ok content` is the text the API returns, `.error ()` is any raised
exception.  The flask-caching `SimpleCache` is modelled as an association
list from key to cached text (time-to-live expiry is outside this model; no
claim refers to it).
-/

namespace Elucidate

/-! ### Python string primitives -/

/-- `str.strip()` on the character list: drop whitespace from both ends. -/
def stripL (l : List Char) : List Char :=
  ((l.dropWhile Char.isWhitespace).reverse.dropWhile Char.isWhitespace).reverse

/-- `str.strip()`. -/
def pyStrip (s : String) : String := ⟨stripL s.data⟩

/-- Emit the word accumulated so far (if any); the accumulator is reversed. -/
def flushAcc (acc : List Char) : List (List Char) :=
  if acc = [] then [] else [acc.reverse]

/-- `str.split()` (no separator): split on runs of whitespace, dropping empty
pieces.  `acc` holds the current word, reversed. -/
def splitWS : List Char → List Char → List (List Char)
  | [], acc => flushAcc acc
  | c :: cs, acc =>
    if c.isWhitespace then flushAcc acc ++ splitWS cs []
    else splitWS cs (c :: acc)

/-- `str.split()` on strings. -/
def pySplit (s : String) : List String := (splitWS s.data []).map String.mk

/-- Number of words of a string, in the sense of Python `len(s.split())`. -/
def wordCount (s : String) : Nat := (pySplit s).length

/-- `" ".join(words)`. -/
def pyJoinSpace : List String → String
  | [] => ""
  | [w] => w
  | w :: ws => w ++ " " ++ pyJoinSpace ws

/-- Python truthiness of `response.strip()`: the stripped answer is
non-empty. -/
def nonBlank (r : String) : Bool := pyStrip r ≠ ""

/-- Concatenation of a list of strings (used to state what `build_prompt`
produces; the source itself accumulates with `+=`). -/
def joinStr : List String → String
  | [] => ""
  | s :: rest => s ++ joinStr rest

/-! ### Static data (`QUESTIONS`, `LABELS`, the preamble) -/

/-- The 6 dream questions (`app.py` lines 33-40). -/
def QUESTIONS : List String := [
  "Hello! What did you dream about last night? Describe the setting as best you can.",
  "Tell me more about one specific detail, figure, or symbol that stood out to you.",
  "What emotions did you feel throughout the dream?",
  "Did anything in your dream feel particularly meaningful or symbolic?",
  "What thoughts or emotions did you have upon waking up?",
  "If you could step back into the dream right now, what would you do or explore further?"
]

/-- The matching labels (`app.py` lines 42-49). -/
def LABELS : List String := [
  "Dream Narrative & Atmosphere",
  "Core Focus and Symbolic Anchor",
  "Emotional Undercurrents",
  "Latent Messages, Personal Symbols",
  "Lingering Impact & Subconscious Echo",
  "Unfinished Exploration & Desire"
]

/-- The fixed instructional preamble of `build_prompt` (lines 58-66). -/
def PREAMBLE : String :=
  "You are a professional dream interpreter. You are trained in both the classics and modern schools of thought. You take into account spirituality as well as psychology. Try to combine meanings between dream elements and interpretations. Do not be afraid to make connections between those elements, treat them as interconnected. Connect with the user, and speak to them directly. Based on the following responses, provide a thoughtful and insightful interpretation of the dream. Avoid literal and obvious interpretations. Avoid a summary paragraph, but instead end with a self-reflective question or insight that encourages deeper personal exploration.\n\n"

/-- `build_prompt(responses)` (lines 56-70): starting from the preamble, for
each `(label, response)` in `zip(LABELS, responses)`, append the line
`f"{label}: {response}\n"` when `response.strip()` is truthy. -/
def build_prompt (responses : List String) : String :=
  (LABELS.zip responses).foldl
    (fun prompt lr =>
      if nonBlank lr.2 then prompt ++ (lr.1 ++ ": " ++ lr.2 ++ "\n") else prompt)
    PREAMBLE

/-- The answer lines `build_prompt` emits after the preamble: one formatted
line per zipped pair whose answer is non-blank, in label order. -/
def answerLines (responses : List String) : List String :=
  ((LABELS.zip responses).filter (fun lr => nonBlank lr.2)).map
    (fun lr => lr.1 ++ ": " ++ lr.2 ++ "\n")

/-! ### The interpretation cache and service client -/

/-- The in-memory cache: key-to-value association list (newest first). -/
abbrev Cache := List (String × String)

/-- `cache.get(key)`. -/
def cacheGet : Cache → String → Option String
  | [], _ => none
  | (k, v) :: rest, key => if k = key then some v else cacheGet rest key

/-- `cache.set(key, value)`. -/
def cacheSet (cache : Cache) (key value : String) : Cache := (key, value) :: cache

/-- Models `hashlib.sha256(prompt.encode("utf-8")).hexdigest()`: a fixed
deterministic function of the prompt text, so byte-identical prompts give the
same key.  Collisions of the digest are outside this model, so the digest is
represented by the prompt text itself. -/
def prompt_hash (prompt : String) : String := prompt

/-- Lines 76-77: `cached_interpretation = cache.get(prompt_hash)` followed by
`if cached_interpretation:` — a truthy hit requires the cached value to exist
and to be a non-empty string. -/
def cacheHit (cache : Cache) (prompt : String) : Option String :=
  match cacheGet cache (prompt_hash prompt) with
  | some v => if v = "" then none else some v
  | none => none

/-- The fixed user-facing fallback sentence (line 101). -/
def FALLBACK_MESSAGE : String :=
  "Sorry, we encountered an error while generating your interpretation. Please try again later."

/-- Lines 93-96: enforce the word limit on the stripped response text. -/
def truncate_words (interpretation : String) : String :=
  let words := pySplit interpretation
  if words.length > 250 then pyJoinSpace (words.take 250) ++ "..." else interpretation

/-- A concrete 251-word response text, used to exercise the truncation
path on an explicit input. -/
def bigContent : String := pyJoinSpace (List.replicate 251 "w")

/-- Result of one `generate_interpretation` call: the returned text, the
cache afterwards, whether `openai.ChatCompletion.create` was invoked, and
whether the artificial `time.sleep(5)` delay ran. -/
structure GenResult where
  text : String
  cache : Cache
  externalCalled : Bool
  delayed : Bool
deriving DecidableEq

/-- `generate_interpretation(prompt)` (lines 72-101).  `ext` is the oracle
for the external call: `.ok content` is the message content the API would
return, `.error ()` any exception raised inside the `try` block.  On a truthy
cache hit the cached text is returned with no external call and no delay; on
a miss the code sleeps, calls the API, strips and truncates the text, caches
it and returns it; if the call raises, the fixed fallback is returned and
nothing is cached. -/
def generate_interpretation (ext : Except Unit String) (cache : Cache)
    (prompt : String) : GenResult :=
  match cacheHit cache prompt with
  | some cached => ⟨cached, cache, false, false⟩
  | none =>
    match ext with
    | .ok content =>
      let interpretation := truncate_words (pyStrip content)
      ⟨interpretation, cacheSet cache (prompt_hash prompt) interpretation, true, true⟩
    | .error _ => ⟨FALLBACK_MESSAGE, cache, true, true⟩

instance {ε α : Type} [DecidableEq ε] [DecidableEq α] : DecidableEq (Except ε α)
  | .ok x, .ok y => decidable_of_iff (x = y) (by simp)
  | .error x, .error y => decidable_of_iff (x = y) (by simp)
  | .ok _, .error _ => isFalse (fun h => Except.noConfusion h)
  | .error _, .ok _ => isFalse (fun h => Except.noConfusion h)

/-! ### Session state and flow-controller handlers -/

/-- The per-visitor session dictionary: each key may be absent.
`responses` models `session["responses"]`, `current_question` models
`session["current_question"]`. -/
structure Session where
  responses : Option (List String)
  current_question : Option Nat
deriving DecidableEq

/-- Submitted form data: association list of field name to value.
`request.form.get(k, d)` is `formGet`, `k in request.form` is `formHas`. -/
abbrev Form := List (String × String)

def formLookup : Form → String → Option String
  | [], _ => none
  | (k, v) :: rest, key => if k = key then some v else formLookup rest key

def formGet (form : Form) (key dflt : String) : String :=
  (formLookup form key).getD dflt

def formHas (form : Form) (key : String) : Bool :=
  (formLookup form key).isSome

/-- Redirect / render target a handler finishes with. -/
inductive Target where
  | question
  | review
  | loading
deriving DecidableEq

/-- A session with neither key set (a fresh visitor). -/
def freshSession : Session := ⟨none, none⟩

/-- `/start` (lines 109-114): reset both keys and redirect to `/question`. -/
def start_handler (_s : Session) : Session × Target :=
  (⟨some (List.replicate QUESTIONS.length ""), some 0⟩, Target.question)

/-- The session `/start` leaves behind. -/
def startSession : Session := (start_handler freshSession).1

/-- GET `/question` (lines 119-120, 133): render `QUESTIONS[current]` with
`q_num = current + 1`; raises `IndexError` when the index is out of range. -/
def question_get (s : Session) : Except String (Nat × String) :=
  let current := s.current_question.getD 0
  if h : current < QUESTIONS.length then
    .ok (current + 1, QUESTIONS.get ⟨current, h⟩)
  else .error "IndexError"

/-- POST `/question` (lines 119-132): trim the submitted answer (blank when a
skip signal is present), store it at the current index, then advance to the
next question or move to review.  `responses[current] = answer` raises when
the index is out of range of the stored list. -/
def question_post (s : Session) (form : Form) : Except String (Session × Target) :=
  let current := s.current_question.getD 0
  let answer0 := pyStrip (formGet form "answer" "")
  let answer := if formHas form "skip" then "" else answer0
  let responses := s.responses.getD (List.replicate QUESTIONS.length "")
  if _h : current < responses.length then
    let s1 : Session := { s with responses := some (responses.set current answer) }
    if current + 1 < QUESTIONS.length then
      .ok ({ s1 with current_question := some (current + 1) }, Target.question)
    else
      .ok (s1, Target.review)
  else .error "IndexError"

/-- The loop of `/review` POST (lines 143-144):
`for i in range(len(QUESTIONS)): responses[i] = request.form.get(f"question_{i}", "").strip()`,
translated over the explicit list of indices; element assignment raises when
the index is out of range. -/
def setAnswersLoop (form : Form) : List Nat → List String → Except String (List String)
  | [], rs => .ok rs
  | i :: is, rs =>
    if _h : i < rs.length then
      setAnswersLoop form is (rs.set i (pyStrip (formGet form ("question_" ++ toString i) "")))
    else .error "IndexError"

/-- GET `/review` (lines 138-140, 147): read the responses, rebuild the
prompt, render both; the session is not written. -/
def review_get (s : Session) : List String × String :=
  let responses := s.responses.getD (List.replicate QUESTIONS.length "")
  (responses, build_prompt responses)

/-- POST `/review` (lines 138-146): overwrite every answer from the form
fields and redirect to `/loading`. -/
def review_post (s : Session) (form : Form) : Except String (Session × Target) :=
  let responses := s.responses.getD (List.replicate QUESTIONS.length "")
  match setAnswersLoop form (List.range QUESTIONS.length) responses with
  | .ok responses1 => .ok ({ s with responses := some responses1 }, Target.loading)
  | .error e => .error e

/-- What GET `/result` (lines 155-164) produces: the rendered page, the cache
afterwards, and the session afterwards.  `md` models `markdown.markdown`. -/
structure ResultOut where
  page : String
  cache : Cache
  session : Session
deriving DecidableEq

/-- GET `/result` (lines 155-164): read the responses, build the prompt, call
the service client, convert the text with `markdown.markdown`, render.  The
handler never writes the session. -/
def result_handler (md : String → String) (ext : Except Unit String)
    (cache : Cache) (s : Session) : ResultOut :=
  let responses := s.responses.getD (List.replicate QUESTIONS.length "")
  let prompt := build_prompt responses
  let r := generate_interpretation ext cache prompt
  let interpretation_html := md r.text
  ⟨interpretation_html, r.cache, s⟩

/-- The session-state invariant of the data model: the (defaulted) responses
list has length `N = len(QUESTIONS)` and the (defaulted) current index lies
in `[0, N-1]`.  Because the defaults themselves satisfy both bounds, this is
equivalent to: whenever a key is present, its value is in range. -/
def sessionOk (s : Session) : Prop :=
  (s.responses.getD (List.replicate QUESTIONS.length "")).length = QUESTIONS.length ∧
  s.current_question.getD 0 < QUESTIONS.length

instance (s : Session) : Decidable (sessionOk s) :=
  inferInstanceAs (Decidable (_ ∧ _))

/-- Session states reachable from a fresh visitor by any sequence of
`/start`, `/question` and `/review` invocations (GET `/question`, GET
`/review` and GET `/result` do not write the session, so they contribute no
transitions). -/
inductive Reachable : Session → Prop where
  | fresh : Reachable freshSession
  | step_start (s : Session) : Reachable s → Reachable (start_handler s).1
  | step_question (s s' : Session) (form : Form) (t : Target) :
      Reachable s → question_post s form = .ok (s', t) → Reachable s'
  | step_review (s s' : Session) (form : Form) (t : Target) :
      Reachable s → review_post s form = .ok (s', t) → Reachable s'

/-! ### Helper lemmas: the service client -/

theorem generate_hit (ext : Except Unit String) (cache : Cache) (prompt v : String)
    (h : cacheHit cache prompt = some v) :
    generate_interpretation ext cache prompt = ⟨v, cache, false, false⟩ := by
  unfold generate_interpretation
  rw [h]

theorem generate_miss_ok (cache : Cache) (prompt content : String)
    (h : cacheHit cache prompt = none) :
    generate_interpretation (.ok content) cache prompt =
      ⟨truncate_words (pyStrip content),
       cacheSet cache (prompt_hash prompt) (truncate_words (pyStrip content)),
       true, true⟩ := by
  unfold generate_interpretation
  rw [h]

theorem generate_miss_error (e : Unit) (cache : Cache) (prompt : String)
    (h : cacheHit cache prompt = none) :
    generate_interpretation (.error e) cache prompt =
      ⟨FALLBACK_MESSAGE, cache, true, true⟩ := by
  unfold generate_interpretation
  rw [h]

theorem generate_miss_invokes (ext : Except Unit String) (cache : Cache) (prompt : String)
    (h : cacheHit cache prompt = none) :
    (generate_interpretation ext cache prompt).externalCalled = true ∧
    (generate_interpretation ext cache prompt).delayed = true := by
  unfold generate_interpretation
  rw [h]
  cases ext <;> exact ⟨rfl, rfl⟩

theorem cacheHit_set_self (cache : Cache) (prompt v : String) :
    cacheHit (cacheSet cache (prompt_hash prompt) v) prompt =
      if v = "" then none else some v := by
  simp [cacheHit, cacheSet, cacheGet]

/-- C1, as frozen, is refuted when the first call "succeeds" with an empty
interpretation: with an empty cache and an external response that strips to
the empty string, the first call returns `""` (which is not the fallback, so
the call counts as successful per the claim), yet the second call with the
byte-identical prompt performs a new external invocation and the artificial
delay, because the truthiness test on the cached `""` reads it as a miss. -/
theorem C1_counterexample :
    (generate_interpretation (.ok "") [] "p").text ≠ FALLBACK_MESSAGE ∧
    (generate_interpretation (.ok "")
        ((generate_interpretation (.ok "") [] "p").cache) "p").externalCalled = true ∧
    (generate_interpretation (.ok "")
        ((generate_interpretation (.ok "") [] "p").cache) "p").delayed = true := by
  refine ⟨?_, ?_, ?_⟩ <;> decide

/-- C1 (amended): if a first call to the service client returns a
non-fallback and non-empty interpretation, then a second call with
byte-identical prompt text returns exactly the same interpretation text,
leaves the cache unchanged, performs no new external invocation and no
artificial delay (cache hit). -/
theorem C1_cached_idempotent (ext ext2 : Except Unit String) (cache : Cache) (prompt : String)
    (h1 : (generate_interpretation ext cache prompt).text ≠ FALLBACK_MESSAGE)
    (h2 : (generate_interpretation ext cache prompt).text ≠ "") :
    generate_interpretation ext2 (generate_interpretation ext cache prompt).cache prompt =
      ⟨(generate_interpretation ext cache prompt).text,
       (generate_interpretation ext cache prompt).cache, false, false⟩ := by
  cases hh : cacheHit cache prompt with
  | some v =>
    rw [generate_hit ext cache prompt v hh]
    exact generate_hit ext2 cache prompt v hh
  | none =>
    cases ext with
    | ok content =>
      rw [generate_miss_ok cache prompt content hh] at h1 h2 ⊢
      have hne : truncate_words (pyStrip content) ≠ "" := h2
      have hhit : cacheHit
          (cacheSet cache (prompt_hash prompt) (truncate_words (pyStrip content))) prompt =
          some (truncate_words (pyStrip content)) := by
        rw [cacheHit_set_self, if_neg hne]
      exact generate_hit ext2 _ prompt _ hhit
    | error e =>
      rw [generate_miss_error e cache prompt hh] at h1
      exact absurd rfl h1

/-- C1 witness: with an empty cache, prompt `"p"` and external response
`"hello"`, the first call succeeds with a non-empty, non-fallback text, and a
second call (even with a failing oracle) returns the cached `"hello"` with no
external invocation and no delay. -/
theorem C1_witness :
    (generate_interpretation (.ok "hello") [] "p").text ≠ FALLBACK_MESSAGE ∧
    (generate_interpretation (.ok "hello") [] "p").text ≠ "" ∧
    generate_interpretation (.error ()) ((generate_interpretation (.ok "hello") [] "p").cache) "p" =
      ⟨(generate_interpretation (.ok "hello") [] "p").text,
       (generate_interpretation (.ok "hello") [] "p").cache, false, false⟩ :=
  ⟨by decide, by decide,
   C1_cached_idempotent (.ok "hello") (.error ()) [] "p" (by decide) (by decide)⟩

/-- C2: when the external call raises on a cache miss, the client returns
exactly the fixed fallback string (no error propagates: the function returns
normally), the cache is left unchanged — so the fallback is never stored —
and a subsequent call with the identical prompt invokes the external service
again. -/
theorem C2_failure_returns_fallback_uncached (cache : Cache) (prompt : String)
    (ext2 : Except Unit String) (hmiss : cacheHit cache prompt = none) :
    generate_interpretation (.error ()) cache prompt =
      ⟨FALLBACK_MESSAGE, cache, true, true⟩ ∧
    (generate_interpretation ext2
        (generate_interpretation (.error ()) cache prompt).cache prompt).externalCalled = true := by
  have h1 := generate_miss_error () cache prompt hmiss
  refine ⟨h1, ?_⟩
  rw [h1]
  exact (generate_miss_invokes ext2 cache prompt hmiss).1

/-- C2 witness: empty cache, prompt `"p"`, failing external call. -/
theorem C2_witness :
    generate_interpretation (.error ()) [] "p" = ⟨FALLBACK_MESSAGE, [], true, true⟩ ∧
    (generate_interpretation (.ok "later")
        (generate_interpretation (.error ()) [] "p").cache "p").externalCalled = true :=
  C2_failure_returns_fallback_uncached [] "p" (.ok "later") rfl

/-- C9: if on a cache miss the external call succeeds but its stripped text
is empty, the empty string is stored in the cache under the prompt's key, yet
any subsequent call with the identical prompt treats the cached empty string
as absent (the hit test checks truthiness, not presence) and re-invokes the
external service, including the artificial delay. -/
theorem C9_empty_result_cached_but_never_hit (cache : Cache) (prompt content : String)
    (ext2 : Except Unit String)
    (hmiss : cacheHit cache prompt = none) (hempty : pyStrip content = "") :
    cacheGet (generate_interpretation (.ok content) cache prompt).cache
        (prompt_hash prompt) = some "" ∧
    (generate_interpretation ext2
        (generate_interpretation (.ok content) cache prompt).cache prompt).externalCalled = true ∧
    (generate_interpretation ext2
        (generate_interpretation (.ok content) cache prompt).cache prompt).delayed = true := by
  have h0 : truncate_words (pyStrip content) = "" := by rw [hempty]; rfl
  have h1 := generate_miss_ok cache prompt content hmiss
  rw [h0] at h1
  rw [h1]
  have hmiss2 : cacheHit (cacheSet cache (prompt_hash prompt) "") prompt = none := by
    rw [cacheHit_set_self, if_pos rfl]
  refine ⟨?_, generate_miss_invokes ext2 _ prompt hmiss2⟩
  simp [cacheSet, cacheGet]

/-- C9 witness: empty cache, prompt `"p"`, external response `" "` (strips to
empty); the follow-up call uses oracle `.ok "x"`. -/
theorem C9_witness :
    cacheGet (generate_interpretation (.ok " ") [] "p").cache (prompt_hash "p") = some "" ∧
    (generate_interpretation (.ok "x")
        (generate_interpretation (.ok " ") [] "p").cache "p").externalCalled = true ∧
    (generate_interpretation (.ok "x")
        (generate_interpretation (.ok " ") [] "p").cache "p").delayed = true :=
  C9_empty_result_cached_but_never_hit [] "p" " " (.ok "x") rfl (by decide)

/-- C7: GET `/result` reads the current responses (defaulting to blanks),
builds the prompt, invokes the service client, converts the returned text
with the markup converter and renders it; the session state is returned
unchanged. -/
theorem C7_result_reads_only (md : String → String) (ext : Except Unit String)
    (cache : Cache) (s : Session) :
    result_handler md ext cache s =
      { page := md (generate_interpretation ext cache
                      (build_prompt (s.responses.getD (List.replicate QUESTIONS.length "")))).text,
        cache := (generate_interpretation ext cache
                    (build_prompt (s.responses.getD (List.replicate QUESTIONS.length "")))).cache,
        session := s } ∧
    (result_handler md ext cache s).session = s :=
  ⟨rfl, rfl⟩

/-! ### Helper lemmas: the prompt builder -/

theorem foldl_append_filter (pairs : List (String × String)) (acc : String) :
    pairs.foldl
      (fun prompt lr =>
        if nonBlank lr.2 then prompt ++ (lr.1 ++ ": " ++ lr.2 ++ "\n") else prompt)
      acc =
    acc ++ joinStr ((pairs.filter (fun lr => nonBlank lr.2)).map
      (fun lr => lr.1 ++ ": " ++ lr.2 ++ "\n")) := by
  induction pairs generalizing acc with
  | nil => simp [joinStr, String.append_empty]
  | cons p ps ih =>
    simp only [List.foldl_cons, List.filter_cons]
    by_cases hp : nonBlank p.2 = true
    · rw [if_pos hp, if_pos hp, ih]
      simp [joinStr, String.append_assoc]
    · rw [if_neg hp, if_neg hp]
      exact ih acc

/-- `build_prompt` is the preamble followed by the concatenation of one
formatted line per zipped `(label, response)` pair with a non-blank
response, in order. -/
theorem build_prompt_eq (responses : List String) :
    build_prompt responses = PREAMBLE ++ joinStr (answerLines responses) := by
  unfold build_prompt answerLines
  exact foldl_append_filter _ _

theorem zip_filter_snd_length (ls rs : List String) (h : rs.length ≤ ls.length) :
    ((ls.zip rs).filter (fun lr => nonBlank lr.2)).length =
      (rs.filter (fun r => nonBlank r)).length := by
  induction rs generalizing ls with
  | nil => simp
  | cons r rt ih =>
    cases ls with
    | nil => simp at h
    | cons l lt =>
      have h' : rt.length ≤ lt.length := Nat.le_of_succ_le_succ h
      simp only [List.zip_cons_cons, List.filter_cons]
      cases hr : nonBlank r with
      | true => simp only [hr, if_true, List.length_cons, ih lt h']
      | false => simpa only [hr, if_false] using ih lt h'

/-- C3, as frozen, fails for answer sequences longer than the label list:
`zip(LABELS, responses)` silently drops the extra answers.  With 7 non-blank
answers the output contains only 6 answer lines, not one line per non-blank
answer. -/
theorem C3_counterexample :
    ((List.replicate 7 "a").filter (fun r => nonBlank r)).length = 7 ∧
    (answerLines (List.replicate 7 "a")).length = 6 ∧
    build_prompt (List.replicate 7 "a") =
      PREAMBLE ++ joinStr (answerLines (List.replicate 7 "a")) :=
  ⟨by decide, by decide, build_prompt_eq _⟩

/-- C3 (amended): for every sequence of at most as many answer strings as
there are labels, `build_prompt` returns the fixed instructional preamble
followed by exactly one line per non-blank answer, in label order, each
formatted `"<label>: <answer>\n"`, and zero lines for blank (empty or
whitespace-only) answers.  The function is a pure total Lean function:
deterministic, no side effects, no error case. -/
theorem C3_build_prompt_lines (responses : List String)
    (h : responses.length ≤ LABELS.length) :
    build_prompt responses = PREAMBLE ++ joinStr (answerLines responses) ∧
    (answerLines responses).length =
      (responses.filter (fun r => nonBlank r)).length := by
  refine ⟨build_prompt_eq responses, ?_⟩
  unfold answerLines
  rw [List.length_map]
  exact zip_filter_snd_length LABELS responses h

/-- C3 witness: the spec's own example `["A dark forest", "", "fear"]`. -/
theorem C3_witness :
    ["A dark forest", "", "fear"].length ≤ LABELS.length ∧
    (build_prompt ["A dark forest", "", "fear"] =
       PREAMBLE ++ joinStr (answerLines ["A dark forest", "", "fear"]) ∧
     (answerLines ["A dark forest", "", "fear"]).length =
       (["A dark forest", "", "fear"].filter (fun r => nonBlank r)).length) :=
  ⟨by decide, C3_build_prompt_lines _ (by decide)⟩

/-! ### Helper lemmas: the flow-controller handlers -/

/-- Full characterization of POST `/question` from a session satisfying the
data-model invariant: the trimmed answer (blank when a skip signal is
present) is stored at the current index; the index advances and the handler
redirects to `/question` when another question remains, otherwise the index
is untouched and the handler redirects to `/review`. -/
theorem question_post_ok (s : Session) (form : Form) (hs : sessionOk s) :
    question_post s form =
      .ok ({ s with
             responses := some ((s.responses.getD (List.replicate QUESTIONS.length "")).set
               (s.current_question.getD 0)
               (if formHas form "skip" then "" else pyStrip (formGet form "answer" ""))),
             current_question :=
               if s.current_question.getD 0 + 1 < QUESTIONS.length
               then some (s.current_question.getD 0 + 1) else s.current_question },
           if s.current_question.getD 0 + 1 < QUESTIONS.length
           then Target.question else Target.review) := by
  obtain ⟨hlen, hcur⟩ := hs
  have hlt : s.current_question.getD 0 <
      (s.responses.getD (List.replicate QUESTIONS.length "")).length := by
    rw [hlen]; exact hcur
  simp only [question_post]
  rw [dif_pos hlt]
  by_cases h2 : s.current_question.getD 0 + 1 < QUESTIONS.length
  · rw [if_pos h2, if_pos h2, if_pos h2]
  · rw [if_neg h2, if_neg h2, if_neg h2]

theorem setAnswersLoop_append (form : Form) (l1 l2 : List Nat) (rs : List String) :
    setAnswersLoop form (l1 ++ l2) rs =
      (setAnswersLoop form l1 rs).bind (setAnswersLoop form l2) := by
  induction l1 generalizing rs with
  | nil => rfl
  | cons i is ih =>
    simp only [List.cons_append, setAnswersLoop]
    by_cases h : i < rs.length
    · rw [dif_pos h, dif_pos h]
      exact ih _
    · rw [dif_neg h, dif_neg h]
      rfl

/-- The `/review` POST loop, run over `range n` with `n` within bounds,
overwrites the first `n` entries with the trimmed form fields. -/
theorem setAnswersLoop_range (form : Form) (n : Nat) (rs : List String)
    (h : n ≤ rs.length) :
    setAnswersLoop form (List.range n) rs =
      .ok ((List.range n).map
             (fun i => pyStrip (formGet form ("question_" ++ toString i) "")) ++
           rs.drop n) := by
  induction n with
  | zero => simp [setAnswersLoop]
  | succ m ih =>
    have hm : m ≤ rs.length := Nat.le_of_succ_le h
    have hmlt : m < rs.length := h
    rw [List.range_succ, setAnswersLoop_append, ih hm]
    show setAnswersLoop form [m] _ = _
    have hmaplen : ((List.range m).map
        (fun i => pyStrip (formGet form ("question_" ++ toString i) ""))).length = m := by
      simp
    have hlenbig : ((List.range m).map
        (fun i => pyStrip (formGet form ("question_" ++ toString i) "")) ++
        rs.drop m).length = rs.length := by
      simp only [List.length_append, List.length_drop, hmaplen]
      omega
    simp only [setAnswersLoop]
    rw [dif_pos (by rw [hlenbig]; exact hmlt)]
    congr 1
    rw [List.set_append_right m _ (Nat.le_of_eq hmaplen), hmaplen, Nat.sub_self]
    rw [List.drop_eq_getElem_cons hmlt, List.set_cons_zero]
    simp [List.map_append]

/-- Full characterization of POST `/review` from a session satisfying the
data-model invariant: every answer is overwritten from the trimmed form
fields and the handler redirects to `/loading`. -/
theorem review_post_ok (s : Session) (form : Form) (hs : sessionOk s) :
    review_post s form =
      .ok ({ s with responses := some ((List.range QUESTIONS.length).map
               (fun i => pyStrip (formGet form ("question_" ++ toString i) ""))) },
           Target.loading) := by
  obtain ⟨hlen, _⟩ := hs
  simp only [review_post]
  rw [setAnswersLoop_range form QUESTIONS.length _ (Nat.le_of_eq hlen.symm)]
  rw [List.drop_eq_nil_of_le (Nat.le_of_eq hlen), List.append_nil]

/-- C6: every session state reachable through `/start`, `/question` and
`/review` satisfies the data-model invariant: the (defaulted) responses list
has length `N` and the (defaulted) current question index lies in
`[0, N-1]`; in particular, whenever the keys are present their values are in
range, and each handler preserves this. -/
theorem C6_reachable_sessionOk (s : Session) (h : Reachable s) : sessionOk s := by
  induction h with
  | fresh => decide
  | step_start s0 _ _ => exact (by decide : sessionOk startSession)
  | step_question s0 s' form t _ heq ih =>
    rw [question_post_ok s0 form ih] at heq
    injection heq with h1
    injection h1 with hA hB
    subst hA
    refine ⟨by simp [ih.1], ?_⟩
    by_cases h2 : s0.current_question.getD 0 + 1 < QUESTIONS.length
    · simp [h2]
    · simp only [if_neg h2]
      exact ih.2
  | step_review s0 s' form t _ heq ih =>
    rw [review_post_ok s0 form ih] at heq
    injection heq with h1
    injection h1 with hA hB
    subst hA
    exact ⟨by simp, ih.2⟩

/-- C6 witness: the state `/start` leaves behind is reachable and satisfies
the invariant. -/
theorem C6_witness : sessionOk startSession :=
  C6_reachable_sessionOk startSession
    (Reachable.step_start freshSession Reachable.fresh)

/-- C5: from any session satisfying the data-model invariant with current
question index `i`, a POST to `/question` stores the trimmed submitted
answer at index `i` — stored as blank whenever a skip signal is present in
the form, regardless of any text also submitted — and then, if `i+1 < N`,
sets the current question index to `i+1` and redirects to `/question`,
otherwise leaves the index and redirects to `/review`. -/
theorem C5_question_post_stores_and_advances (s : Session) (form : Form)
    (hs : sessionOk s) :
    question_post s form =
      .ok ({ s with
             responses := some ((s.responses.getD (List.replicate QUESTIONS.length "")).set
               (s.current_question.getD 0)
               (if formHas form "skip" then "" else pyStrip (formGet form "answer" ""))),
             current_question :=
               if s.current_question.getD 0 + 1 < QUESTIONS.length
               then some (s.current_question.getD 0 + 1) else s.current_question },
           if s.current_question.getD 0 + 1 < QUESTIONS.length
           then Target.question else Target.review) :=
  question_post_ok s form hs

/-- C5 witness: submitting text together with a skip signal on the first
question stores a blank answer, advances the index to 1 and redirects to
`/question`. -/
theorem C5_witness :
    question_post startSession [("answer", "ignored text"), ("skip", "1")] =
      .ok (⟨some ["", "", "", "", "", ""], some 1⟩, Target.question) :=
  (C5_question_post_stores_and_advances startSession
    [("answer", "ignored text"), ("skip", "1")] (by decide)).trans (by decide)

/-- C8: on any POST to `/question` or `/review` from a session satisfying
the data-model invariant, the handlers never raise; when the `answer` field
is missing the answer stored by `/question` defaults to the blank string,
and when the `question_i` field is missing the answer stored at `i` by
`/review` defaults to the blank string. -/
theorem C8_missing_fields_default_blank (s : Session) (form : Form) (i : Nat)
    (hs : sessionOk s) (hi : i < QUESTIONS.length)
    (hanswer : formLookup form "answer" = none)
    (hquestion : formLookup form ("question_" ++ toString i) = none) :
    question_post s form =
      .ok ({ s with
             responses := some ((s.responses.getD (List.replicate QUESTIONS.length "")).set
               (s.current_question.getD 0) ""),
             current_question :=
               if s.current_question.getD 0 + 1 < QUESTIONS.length
               then some (s.current_question.getD 0 + 1) else s.current_question },
           if s.current_question.getD 0 + 1 < QUESTIONS.length
           then Target.question else Target.review) ∧
    review_post s form =
      .ok ({ s with responses := some ((List.range QUESTIONS.length).map
               (fun j => pyStrip (formGet form ("question_" ++ toString j) ""))) },
           Target.loading) ∧
    ((List.range QUESTIONS.length).map
        (fun j => pyStrip (formGet form ("question_" ++ toString j) "")))[i]? =
      some "" := by
  have hget : formGet form "answer" "" = "" := by simp [formGet, hanswer]
  have hstored : (if formHas form "skip" then "" else pyStrip (formGet form "answer" "")) =
      "" := by
    rw [hget]
    show (if formHas form "skip" then "" else pyStrip "") = ""
    rw [show pyStrip "" = "" from rfl]
    exact ite_self ""
  refine ⟨?_, review_post_ok s form hs, ?_⟩
  · have h1 := question_post_ok s form hs
    rw [hstored] at h1
    exact h1
  · rw [List.getElem?_map, List.getElem?_range hi]
    show some (pyStrip (formGet form ("question_" ++ toString i) "")) = some ""
    rw [show formGet form ("question_" ++ toString i) "" = ""
        from by simp [formGet, hquestion]]
    rfl

/-- C8 witness: an entirely empty form on the post-`/start` session. -/
theorem C8_witness :
    question_post startSession [] =
      .ok (⟨some ["", "", "", "", "", ""], some 1⟩, Target.question) ∧
    review_post startSession [] =
      .ok (⟨some ["", "", "", "", "", ""], some 0⟩, Target.loading) ∧
    ((List.range QUESTIONS.length).map
        (fun j => pyStrip (formGet [] ("question_" ++ toString j) "")))[0]? =
      some "" := by
  obtain ⟨h1, h2, h3⟩ :=
    C8_missing_fields_default_blank startSession [] 0 (by decide) (by decide) rfl rfl
  exact ⟨h1.trans (by decide), h2.trans (by decide), h3⟩

/-- C10: a fresh session (neither key set) makes none of the GET handlers
raise: `/question` renders the first question with `q_num = 1`, `/review`
renders six blank answers and the preamble-only prompt, and `/result` builds
the preamble-only prompt, runs it through the service client and still
produces an interpretation page, leaving the session unchanged. -/
theorem C10_fresh_session_gets_safe (md : String → String)
    (ext : Except Unit String) (cache : Cache) :
    question_get freshSession =
      .ok (1, "Hello! What did you dream about last night? Describe the setting as best you can.") ∧
    review_get freshSession = (List.replicate QUESTIONS.length "", PREAMBLE) ∧
    result_handler md ext cache freshSession =
      ⟨md (generate_interpretation ext cache PREAMBLE).text,
       (generate_interpretation ext cache PREAMBLE).cache, freshSession⟩ :=
  ⟨rfl, rfl, rfl⟩

/-! ### Helper lemmas: Python word splitting and the 250-word limit -/

/-- Every word produced by `splitWS` from a whitespace-free accumulator is
non-empty and whitespace-free. -/
theorem splitWS_clean : ∀ (l acc : List Char),
    (∀ c ∈ acc, c.isWhitespace = false) →
    ∀ w ∈ splitWS l acc, w ≠ [] ∧ ∀ c ∈ w, c.isWhitespace = false
  | [], acc, hacc, w, hw => by
    simp only [splitWS, flushAcc] at hw
    by_cases hacc0 : acc = []
    · rw [if_pos hacc0] at hw
      cases hw
    · rw [if_neg hacc0] at hw
      rw [List.mem_singleton] at hw
      subst hw
      refine ⟨by simpa using hacc0, ?_⟩
      intro c hc
      exact hacc c (List.mem_reverse.mp hc)
  | b :: cs, acc, hacc, w, hw => by
    simp only [splitWS] at hw
    by_cases hb : b.isWhitespace = true
    · rw [if_pos hb] at hw
      rcases List.mem_append.mp hw with hw1 | hw2
      · exact splitWS_clean [] acc hacc w (by simpa [splitWS] using hw1)
      · exact splitWS_clean cs [] (by intro c hc; cases hc) w hw2
    · rw [if_neg hb] at hw
      refine splitWS_clean cs (b :: acc) ?_ w hw
      intro c hc
      rcases List.mem_cons.mp hc with rfl | hc'
      · simpa using hb
      · exact hacc c hc'

/-- Consuming a whitespace-free word moves it onto the accumulator. -/
theorem splitWS_consume : ∀ (w : List Char),
    (∀ c ∈ w, c.isWhitespace = false) →
    ∀ (rest acc : List Char),
    splitWS (w ++ rest) acc = splitWS rest (w.reverse ++ acc)
  | [], _, rest, acc => by simp
  | b :: cs, hw, rest, acc => by
    have hb : b.isWhitespace = false := hw b (List.mem_cons_self b cs)
    show splitWS (b :: (cs ++ rest)) acc = _
    simp only [splitWS]
    rw [if_neg (by simp [hb])]
    rw [splitWS_consume cs (fun c hc => hw c (List.mem_cons_of_mem _ hc)) rest (b :: acc)]
    simp [List.append_assoc]

/-- A whitespace-free, non-empty (word or accumulator) run splits into one
single word. -/
theorem splitWS_single : ∀ (u acc : List Char),
    (∀ c ∈ u, c.isWhitespace = false) → (u ≠ [] ∨ acc ≠ []) →
    splitWS u acc = [acc.reverse ++ u]
  | [], acc, _, hne => by
    have hacc : acc ≠ [] := hne.resolve_left (fun h => h rfl)
    simp [splitWS, flushAcc, hacc]
  | b :: cs, hu, _, _ => by
    have hb : (b :: cs : List Char) ≠ [] := List.cons_ne_nil b cs
    rename_i hclean hor
    have hbws : b.isWhitespace = false := hclean b (List.mem_cons_self b cs)
    show splitWS (b :: cs) _ = _
    simp only [splitWS]
    rw [if_neg (by simp [hbws])]
    rw [splitWS_single cs _ (fun c hc => hclean c (List.mem_cons_of_mem _ hc))
        (Or.inr (List.cons_ne_nil b _))]
    simp [List.append_assoc]

/-- Splitting an all-whitespace run only flushes the accumulator. -/
theorem splitWS_allws : ∀ (t acc : List Char),
    (∀ c ∈ t, c.isWhitespace = true) → splitWS t acc = flushAcc acc
  | [], _, _ => rfl
  | b :: cs, acc, ht => by
    have hb : b.isWhitespace = true := ht b (List.mem_cons_self b cs)
    show splitWS (b :: cs) acc = _
    simp only [splitWS]
    rw [if_pos hb]
    rw [splitWS_allws cs [] (fun c hc => ht c (List.mem_cons_of_mem _ hc))]
    simp [flushAcc]

/-- Trailing whitespace does not change the split. -/
theorem splitWS_append_trailing : ∀ (s t acc : List Char),
    (∀ c ∈ t, c.isWhitespace = true) → splitWS (s ++ t) acc = splitWS s acc
  | [], t, acc, ht => by
    rw [List.nil_append, splitWS_allws t acc ht]
    rfl
  | b :: cs, t, acc, ht => by
    show splitWS (b :: (cs ++ t)) acc = splitWS (b :: cs) acc
    simp only [splitWS]
    by_cases hb : b.isWhitespace = true
    · rw [if_pos hb, if_pos hb, splitWS_append_trailing cs t [] ht]
    · rw [if_neg hb, if_neg hb, splitWS_append_trailing cs t (b :: acc) ht]

/-- Leading whitespace does not change the split. -/
theorem splitWS_dropWhile : ∀ (l : List Char),
    splitWS (l.dropWhile Char.isWhitespace) [] = splitWS l []
  | [] => rfl
  | b :: cs => by
    rw [List.dropWhile_cons]
    by_cases hb : b.isWhitespace = true
    · rw [if_pos hb, splitWS_dropWhile cs]
      show _ = splitWS (b :: cs) []
      simp [splitWS, hb, flushAcc]
    · rw [if_neg hb]

/-- `str.strip()` does not change the split word list. -/
theorem splitWS_stripL (l : List Char) : splitWS (stripL l) [] = splitWS l [] := by
  unfold stripL
  set m := l.dropWhile Char.isWhitespace with hm
  have h1 : m.reverse.takeWhile Char.isWhitespace ++ m.reverse.dropWhile Char.isWhitespace =
      m.reverse := List.takeWhile_append_dropWhile _ _
  have h2 : m = (m.reverse.dropWhile Char.isWhitespace).reverse ++
      (m.reverse.takeWhile Char.isWhitespace).reverse := by
    rw [← List.reverse_append, h1, List.reverse_reverse]
  have htake : ∀ c ∈ (m.reverse.takeWhile Char.isWhitespace).reverse,
      c.isWhitespace = true := by
    intro c hc
    exact List.mem_takeWhile_imp (List.mem_reverse.mp hc)
  calc splitWS ((m.reverse.dropWhile Char.isWhitespace).reverse) []
      = splitWS ((m.reverse.dropWhile Char.isWhitespace).reverse ++
          (m.reverse.takeWhile Char.isWhitespace).reverse) [] :=
        (splitWS_append_trailing _ _ [] htake).symm
    _ = splitWS m [] := by rw [← h2]
    _ = splitWS l [] := splitWS_dropWhile l

/-- `s.strip().split() == s.split()`. -/
theorem pySplit_pyStrip (s : String) : pySplit (pyStrip s) = pySplit s := by
  unfold pySplit pyStrip
  rw [show (String.mk (stripL s.data)).data = stripL s.data from rfl, splitWS_stripL]

/-- Splitting `" ".join(words) ++ suffix` yields exactly one word per joined
word, when the words and the suffix are non-empty and whitespace-free. -/
theorem splitWS_join_length : ∀ (ws : List String) (suffix : List Char),
    (∀ w ∈ ws, w.data ≠ [] ∧ ∀ c ∈ w.data, c.isWhitespace = false) →
    suffix ≠ [] → (∀ c ∈ suffix, c.isWhitespace = false) → ws ≠ [] →
    (splitWS ((pyJoinSpace ws).data ++ suffix) []).length = ws.length
  | [], _, _, _, _, hne => absurd rfl hne
  | [w], suffix, hclean, hsuf, hsufclean, _ => by
    obtain ⟨hwne, hwclean⟩ := hclean w (List.mem_singleton.mpr rfl)
    show (splitWS (w.data ++ suffix) []).length = 1
    rw [splitWS_consume w.data hwclean suffix []]
    rw [splitWS_single suffix (w.data.reverse ++ []) hsufclean (Or.inl hsuf)]
    rfl
  | w :: x :: t, suffix, hclean, hsuf, hsufclean, _ => by
    obtain ⟨hwne, hwclean⟩ := hclean w (List.mem_cons_self _ _)
    have hdata : (pyJoinSpace (w :: x :: t)).data ++ suffix =
        w.data ++ (' ' :: ((pyJoinSpace (x :: t)).data ++ suffix)) := by
      show (w ++ " " ++ pyJoinSpace (x :: t)).data ++ suffix = _
      rw [String.data_append, String.data_append]
      rw [show (" " : String).data = [' '] from rfl]
      simp [List.append_assoc]
    rw [hdata, splitWS_consume w.data hwclean _ []]
    show (splitWS (' ' :: ((pyJoinSpace (x :: t)).data ++ suffix))
        (w.data.reverse ++ [])).length = _
    simp only [splitWS]
    rw [if_pos (show (' ').isWhitespace = true from rfl)]
    have hflush : flushAcc (w.data.reverse ++ []) =
        [(w.data.reverse ++ []).reverse] := by
      unfold flushAcc
      rw [if_neg (by simp [hwne])]
    rw [hflush, List.length_append]
    rw [splitWS_join_length (x :: t) suffix
        (fun u hu => hclean u (List.mem_cons_of_mem _ hu)) hsuf hsufclean
        (List.cons_ne_nil x t)]
    simp
    omega

/-- The text produced by the truncation step never exceeds 250 words. -/
theorem wordCount_truncate_le (s : String) : wordCount (truncate_words s) ≤ 250 := by
  unfold truncate_words
  by_cases h : (pySplit s).length > 250
  · rw [if_pos h]
    have hclean : ∀ w ∈ (pySplit s).take 250,
        w.data ≠ [] ∧ ∀ c ∈ w.data, c.isWhitespace = false := by
      intro w hw
      have hw' := List.mem_of_mem_take hw
      unfold pySplit at hw'
      rcases List.mem_map.mp hw' with ⟨u, hu, rfl⟩
      exact splitWS_clean s.data [] (by intro c hc; cases hc) u hu
    have hlen250 : ((pySplit s).take 250).length = 250 := by
      rw [List.length_take]
      omega
    have hne : (pySplit s).take 250 ≠ [] := by
      apply List.length_pos.mp
      rw [hlen250]
      norm_num
    have hmain := splitWS_join_length ((pySplit s).take 250) ['.', '.', '.']
      hclean (by decide) (by decide) hne
    show wordCount (pyJoinSpace ((pySplit s).take 250) ++ "...") ≤ 250
    unfold wordCount
    rw [show pySplit (pyJoinSpace ((pySplit s).take 250) ++ "...") =
          (splitWS ((pyJoinSpace ((pySplit s).take 250)).data ++ ['.', '.', '.']) []).map
            String.mk
        from by
          show (splitWS ((pyJoinSpace ((pySplit s).take 250) ++ "...").data) []).map
              String.mk = _
          rw [String.data_append, show ("..." : String).data = ['.', '.', '.'] from rfl]]
    rw [List.length_map, hmain, hlen250]
  · rw [if_neg h]
    exact Nat.le_of_not_lt h

/-- On the truncation branch, the produced text is the first 250 words joined
by single spaces, with the ellipsis marker appended. -/
theorem truncate_words_gt (s : String) (h : (pySplit s).length > 250) :
    truncate_words s = pyJoinSpace ((pySplit s).take 250) ++ "..." := by
  unfold truncate_words
  rw [if_pos h]

/-- C4: on a cache miss with a successful external call, the returned
interpretation has at most 250 words; and when the raw external result
exceeds 250 words, the returned text ends with the ellipsis marker and the
cache stores exactly that returned text under the prompt's key. -/
theorem C4_truncation_word_limit (cache : Cache) (prompt content : String)
    (hmiss : cacheHit cache prompt = none) :
    wordCount (generate_interpretation (.ok content) cache prompt).text ≤ 250 ∧
    (250 < wordCount content →
      (∃ t, (generate_interpretation (.ok content) cache prompt).text = t ++ "...") ∧
      cacheGet (generate_interpretation (.ok content) cache prompt).cache
          (prompt_hash prompt) =
        some (generate_interpretation (.ok content) cache prompt).text) := by
  rw [generate_miss_ok cache prompt content hmiss]
  refine ⟨wordCount_truncate_le _, fun hgt => ?_⟩
  have hgt' : (pySplit (pyStrip content)).length > 250 := by
    rw [pySplit_pyStrip]
    exact hgt
  constructor
  · refine ⟨pyJoinSpace ((pySplit (pyStrip content)).take 250), ?_⟩
    show truncate_words (pyStrip content) = _
    exact truncate_words_gt _ hgt'
  · show cacheGet (cacheSet cache (prompt_hash prompt) (truncate_words (pyStrip content)))
        (prompt_hash prompt) = some (truncate_words (pyStrip content))
    simp [cacheSet, cacheGet]

/-- C4 witness: empty cache, prompt `"p"`, and a concrete 251-word external
response. -/
theorem C4_witness :
    cacheHit [] "p" = none ∧
    (wordCount (generate_interpretation (.ok bigContent) [] "p").text ≤ 250 ∧
     (250 < wordCount bigContent →
       (∃ t, (generate_interpretation (.ok bigContent) [] "p").text = t ++ "...") ∧
       cacheGet (generate_interpretation (.ok bigContent) [] "p").cache
           (prompt_hash "p") =
         some (generate_interpretation (.ok bigContent) [] "p").text)) :=
  ⟨rfl, C4_truncation_word_limit [] "p" bigContent rfl⟩

end Elucidate

